import Mathlib

/-!
Verification of the exif-turbo indexing pipeline.

This file shallowly embeds the program's core: the metadata extractor
(`extract` in `indexing/exif_metadata_extractor.py`), the search-blob
builder (`metadata_to_text` in `indexer.py`), the SQLite-backed repository
(`db.py`: `upsert_image`, `delete_missing`, `clear_all`, `search_images`),
the sequential rebuild loop (`IndexerService.build_index`, `workers = 1`
path), and the thumbnail cache (`utils/thumb_cache.py`,
`ui/workers/thumb_worker.py`).

Modelling choices, stated once:
* Python dicts are association lists with insert-or-replace-in-place
  semantics (`dictInsert`), matching CPython's insertion-ordered dicts.
* `mtime` (a Python float that is only carried, never computed with) is
  modelled as `Int`.
* SQLite's `id INTEGER PRIMARY KEY` assigns `max(id) + 1` to a fresh row
  (1 on an empty table); this is `freshId`.
* The FTS5 engine's `MATCH` predicate and `bm25` score are external;
  they are parameters (`FtsEngine`).  SQLite's `bm25()` is
  lower-is-more-relevant, so `ORDER BY bm25(...)` ascending is descending
  relevance order.
* Fallible Python operations (subprocess, `json.loads`, `PIL.Image.open`,
  `os.stat`) are oracle functions returning `Except Unit _` or `Option _`.
-/

/-- A single-quote character as a string (Python `repr` of strings uses it). -/
def squote : String := String.singleton (Char.ofNat 39)

/-- Python dict assignment `m[k] = v`: replace in place if the key exists
(keeping its position), else append at the end. -/
def dictInsert (m : List (String × String)) (k v : String) : List (String × String) :=
  if m.any (fun kv => kv.1 = k) then
    m.map (fun kv => if kv.1 = k then (k, v) else kv)
  else
    m ++ [(k, v)]

/-- Python dict lookup `m.get(k)`. -/
def dictLookup (m : List (String × String)) (k : String) : Option String :=
  (m.find? (fun kv => kv.1 = k)).map (fun kv => kv.2)

/-- JSON string escaping as `json.dumps` performs it with
`ensure_ascii=False`: backslash, double quote and control characters are
escaped, everything else is emitted literally. -/
def jsonEscapeChar (c : Char) : String :=
  if c = '\\' then "\\\\"
  else if c = '\"' then "\\\""
  else if c = '\n' then "\\n"
  else if c = '\t' then "\\t"
  else if c = '\r' then "\\r"
  else if c = Char.ofNat 8 then "\\b"
  else if c = Char.ofNat 12 then "\\f"
  else if c.toNat < 32 then
    "\\u00" ++ (Nat.toDigits 16 c.toNat).asString.leftpad 2 (Char.ofNat 48)
  else String.singleton c

/-- `json.dumps` on a `str -> str` dict with `ensure_ascii=False` and the
default separators: `{"k": "v", ...}`. -/
def jsonDumps (m : List (String × String)) : String :=
  "\x7b" ++
    String.intercalate ", "
      (m.map (fun kv => "\"" ++ (kv.1.data.map jsonEscapeChar).foldl (· ++ ·) "" ++
        "\": \"" ++ (kv.2.data.map jsonEscapeChar).foldl (· ++ ·) "" ++ "\"")) ++
  "\x7d"

/-- `metadata_to_text` from `indexer.py` (the copy in
`indexing/indexer_service.py` is identical): append each key and each
value to `parts` in iteration order, then the `json.dumps` of the whole
mapping, and join with single spaces. -/
def metadata_to_text (metadata : List (String × String)) : String :=
  let parts : List String :=
    metadata.foldl (fun acc kv => acc ++ [kv.1, kv.2]) []
  String.intercalate " " (parts ++ [jsonDumps metadata])

/-- The spec's description of the search blob, written independently of the
source: the keys interleaved with their values in iteration order, followed
by the compact re-serialization of the mapping, as one space-joined text. -/
def metadataToTextSpec (metadata : List (String × String)) : String :=
  String.intercalate " "
    ((metadata.flatMap (fun kv => [kv.1, kv.2])) ++ [jsonDumps metadata])

/-! ### Metadata extractor (`indexing/exif_metadata_extractor.py`) -/

/-- Values as decoded by `json.loads` from the exiftool output (numbers are
modelled as integers; exiftool is invoked with `-n`). -/
inductive JVal where
  | jnull
  | jbool (b : Bool)
  | jnum (n : Int)
  | jstr (s : String)
  | jarr (xs : List JVal)
  | jobj (fields : List (String × JVal))

mutual

/-- Python `repr` of a JSON-decoded value (used inside `str` of containers):
strings in single quotes, lists in brackets, dicts in braces, elements
comma-separated. -/
def pyRepr : JVal → String
  | .jnull => "None"
  | .jbool true => "True"
  | .jbool false => "False"
  | .jnum n => toString n
  | .jstr s => squote ++ s ++ squote
  | .jarr xs => "[" ++ pyReprList xs ++ "]"
  | .jobj fs => "\x7b" ++ pyReprFields fs ++ "\x7d"

/-- Comma-separated `repr`s of list elements. -/
def pyReprList : List JVal → String
  | [] => ""
  | [x] => pyRepr x
  | x :: y :: rest => pyRepr x ++ ", " ++ pyReprList (y :: rest)

/-- Comma-separated `'key': repr(value)` pairs of dict entries. -/
def pyReprFields : List (String × JVal) → String
  | [] => ""
  | [kv] => squote ++ kv.1 ++ squote ++ ": " ++ pyRepr kv.2
  | kv :: kw :: rest =>
      squote ++ kv.1 ++ squote ++ ": " ++ pyRepr kv.2 ++ ", " ++ pyReprFields (kw :: rest)

end

/-- Python `str` of a JSON-decoded value. -/
def pyStr : JVal → String
  | .jnull => "None"
  | .jbool true => "True"
  | .jbool false => "False"
  | .jnum n => toString n
  | .jstr s => s
  | v => pyRepr v

/-- Split a character list on a separator character; always returns at
least one (possibly empty) part. -/
def splitChar (sep : Char) : List Char → List (List Char)
  | [] => [[]]
  | c :: rest =>
      let r := splitChar sep rest
      if c = sep then [] :: r
      else
        match r with
        | [] => [[c]]
        | h :: t => (c :: h) :: t

/-- `Path(p).name`: the last path component. -/
def pathName (p : String) : String :=
  String.mk ((splitChar (Char.ofNat 47) p.data).getLastD [])

/-- `Path(p).suffix`: the final extension of the last component, with its
dot, or `""` when the name has no dot after its first character. -/
def pathSuffix (p : String) : String :=
  match splitChar (Char.ofNat 46) ((pathName p).data.drop 1) with
  | [] => ""
  | [_] => ""
  | parts => "." ++ String.mk (parts.getLastD [])

/-- `str.lower()` restricted to ASCII letters, which is all the extension
allow-list needs. -/
def asciiLower (s : String) : String :=
  String.mk (s.data.map (fun c =>
    if 65 ≤ c.toNat && c.toNat ≤ 90 then Char.ofNat (c.toNat + 32) else c))

/-- Python computations that may raise an exception. -/
abbrev Py (α : Type) := Except Unit α

/-- `try: ... except Exception: pass` around an expression whose partial
effects are not observable: evaluate, fall back to a default on exception. -/
def pyTry {α : Type} (a : Py α) (dflt : α) : α :=
  match a with
  | .ok x => x
  | .error _ => dflt

/-- The external, fallible operations `extract` performs: running exiftool
(returning its stdout), decoding JSON, and opening the file with PIL
(returning the `info` key/value pairs). -/
structure ExtractEnv where
  runExiftool : String → Py String
  jsonLoads : String → Py JVal
  imageOpen : String → Py (List (String × JVal))

/-- Flattening of `items[0].items()`: a dict value contributes
`"K:Sk" -> str(sub_value)` per sub-entry, any other value contributes
`str(K) -> str(value)`. -/
def flattenFields (fields : List (String × JVal)) : List (String × String) :=
  fields.foldl
    (fun md kv =>
      match kv.2 with
      | .jobj sub =>
          sub.foldl (fun md2 skv => dictInsert md2 (kv.1 ++ ":" ++ skv.1) (pyStr skv.2)) md
      | v => dictInsert md kv.1 (pyStr v))
    []

/-- Stage 1 of `ExifMetadataExtractor.extract`: run exiftool, decode its
stdout when non-empty, and flatten `items[0]` when the result is a
non-empty list whose head is a dict; calling `.items()` on a non-dict head
raises.  Any step may raise; the caller catches. -/
def stage1 (env : ExtractEnv) (path : String) : Py (List (String × String)) := do
  let out ← env.runExiftool path
  if out ≠ "" then
    let items ← env.jsonLoads out
    match items with
    | .jarr (first :: _) =>
        match first with
        | .jobj fields => pure (flattenFields fields)
        | _ => Except.error ()
    | _ => pure []
  else
    pure []

/-- The container formats whose ancillary text stage 1 does not expose. -/
def pilExtensions : List String := [".png", ".gif", ".bmp", ".webp"]

/-- `ExifMetadataExtractor.extract`: stage 1 under `try/except pass`, then,
for the container formats, merge PIL `info` entries under the `PIL:`
namespace (again swallowing any decode error). -/
def extract (env : ExtractEnv) (path : String) : Py (List (String × String)) :=
  let metadata := pyTry (stage1 env path) []
  let metadata :=
    if pilExtensions.contains (asciiLower (pathSuffix path)) then
      match env.imageOpen path with
      | .ok info =>
          info.foldl (fun md kv => dictInsert md ("PIL:" ++ kv.1) (pyStr kv.2)) metadata
      | .error _ => metadata
    else metadata
  pure metadata

/-! ### Index repository (`db.py`) -/

/-- A row of the `images` table:
`(id INTEGER PRIMARY KEY, path UNIQUE, filename, mtime, size, metadata_json)`. -/
structure ImageRow where
  id : Nat
  path : String
  filename : String
  mtime : Int
  size : Nat
  metadata_json : String
deriving DecidableEq

/-- A row of the `images_fts` FTS5 table: `(rowid, path, filename, metadata_text)`. -/
structure FtsRow where
  rowid : Nat
  path : String
  filename : String
  metadata_text : String
deriving DecidableEq

/-- The repository state: both tables, in row-scan order. -/
structure DB where
  images : List ImageRow
  fts : List FtsRow
deriving DecidableEq

def emptyDB : DB := ⟨[], []⟩

/-- SQLite's rowid assignment for `INTEGER PRIMARY KEY` without
`AUTOINCREMENT`: one more than the largest existing id, 1 for an empty
table (after `DELETE FROM images`, ids are reused). -/
def freshId (rows : List ImageRow) : Nat :=
  (rows.foldl (fun a r => max a r.id) 0) + 1

/-- `ImageIndexRepository.upsert_image`: `INSERT ... ON CONFLICT(path) DO
UPDATE` into `images` (the existing row keeps its id), then `INSERT OR
REPLACE INTO images_fts` with `rowid = (SELECT id FROM images WHERE path = ?)`. -/
def upsert_image (db : DB) (path filename : String) (mtime : Int) (size : Nat)
    (metadata : List (String × String)) (metadata_text : String) : DB :=
  let metadata_json := jsonDumps metadata
  let images :=
    if db.images.any (fun r => r.path = path) then
      db.images.map (fun r =>
        if r.path = path then
          { r with filename := filename, mtime := mtime, size := size,
                   metadata_json := metadata_json }
        else r)
    else
      db.images ++ [{ id := freshId db.images, path := path, filename := filename,
                      mtime := mtime, size := size, metadata_json := metadata_json }]
  let rid := ((images.find? (fun r => r.path = path)).map (fun r => r.id)).getD 0
  let fts := (db.fts.filter (fun f => f.rowid ≠ rid)) ++ [⟨rid, path, filename, metadata_text⟩]
  ⟨images, fts⟩

/-- `ImageIndexRepository.delete_missing`: delete from both tables every
path present in `images` but absent from `existing_paths`. -/
def delete_missing (db : DB) (existing_paths : List String) : DB :=
  let toDelete := (db.images.map (fun r => r.path)).filter (fun p => ¬ existing_paths.contains p)
  ⟨db.images.filter (fun r => ¬ toDelete.contains r.path),
   db.fts.filter (fun f => ¬ toDelete.contains f.path)⟩

/-- `ImageIndexRepository.clear_all`: `DELETE FROM images_fts; DELETE FROM images`. -/
def clear_all (_db : DB) : DB :=
  ⟨[], []⟩

/-- The external FTS5 engine: its `MATCH` predicate over an indexed row and
its `bm25` value (SQLite's `bm25()` is lower-is-more-relevant, so ascending
`bm25` order is descending relevance order). -/
structure FtsEngine where
  matchQ : String → FtsRow → Bool
  bm25 : String → FtsRow → Int

/-- `ORDER BY filename` on `images` rows. -/
def nameLe (a b : ImageRow) : Prop := a.filename ≤ b.filename

instance : DecidableRel nameLe :=
  fun a b => inferInstanceAs (Decidable (a.filename ≤ b.filename))

/-- `ORDER BY bm25(images_fts)` (ascending) on joined rows. -/
def bm25Le (eng : FtsEngine) (q : String) (a b : FtsRow × ImageRow) : Prop :=
  eng.bm25 q a.1 ≤ eng.bm25 q b.1

instance (eng : FtsEngine) (q : String) : DecidableRel (bm25Le eng q) :=
  fun a b => inferInstanceAs (Decidable (eng.bm25 q a.1 ≤ eng.bm25 q b.1))

/-- `FROM images_fts JOIN images ON images_fts.rowid = images.id`. -/
def joinedRows (db : DB) : List (FtsRow × ImageRow) :=
  db.fts.filterMap (fun f => (db.images.find? (fun i => i.id = f.rowid)).map (fun i => (f, i)))

/-- The full (un-paginated) ranked result of the non-empty-query branch:
the join filtered by `MATCH`, ordered by ascending `bm25`. -/
def rankedJoin (eng : FtsEngine) (db : DB) (q : String) : List (FtsRow × ImageRow) :=
  List.insertionSort (bm25Le eng q) ((joinedRows db).filter (fun fi => eng.matchQ q fi.1))

/-- The full result of the empty-query branch: `images` ordered by filename. -/
def byNameSorted (db : DB) : List ImageRow :=
  List.insertionSort nameLe db.images

/-- The selected columns `(id, path, filename, metadata_json)`. -/
def projRow (i : ImageRow) : Nat × String × String × String :=
  (i.id, i.path, i.filename, i.metadata_json)

/-- Python `str.isspace`, the whitespace set a no-argument `str.strip()`
removes: tab through carriage return (U+0009..U+000D), the file/group/
record/unit separators plus space (U+001C..U+0020), next line (U+0085),
no-break space (U+00A0), Ogham space mark (U+1680), the Unicode spaces
U+2000..U+200A, the line and paragraph separators (U+2028, U+2029), the
narrow no-break space (U+202F), the medium mathematical space (U+205F),
and the ideographic space (U+3000). -/
def pyIsSpace (c : Char) : Bool :=
  let n := c.toNat
  (9 ≤ n && n ≤ 13) || (28 ≤ n && n ≤ 32) || n = 133 || n = 160 ||
    n = 5760 || (8192 ≤ n && n ≤ 8202) || n = 8232 || n = 8233 ||
    n = 8239 || n = 8287 || n = 12288

/-- Truthiness of `query.strip()`: the stripped string is non-empty exactly
when some character is not whitespace. -/
def stripTruthy (s : String) : Bool :=
  s.data.any (fun c => !(pyIsSpace c))

/-- `search_images` before `LIMIT`/`OFFSET`: `query.strip()` falsy selects
the filename-ordered scan of `images`; otherwise the bm25-ordered `MATCH`
join. -/
def searchAll (eng : FtsEngine) (db : DB) (query : String) :
    List (Nat × String × String × String) :=
  if stripTruthy query then
    (rankedJoin eng db query).map (fun fi => projRow fi.2)
  else
    (byNameSorted db).map projRow

/-- `ImageIndexRepository.search_images` with `LIMIT ? OFFSET ?`: `OFFSET`
skips that many rows of the ordered result, `LIMIT` takes that many. -/
def search_images (eng : FtsEngine) (db : DB) (query : String) (limit offset : Nat) :
    List (Nat × String × String × String) :=
  ((searchAll eng db query).drop offset).take limit

/-! ### Indexer service (`indexer.py`, sequential `workers = 1` path) -/

/-- The `IndexedImage` dataclass. -/
structure IndexedImage where
  path : String
  filename : String
  mtime : Int
  size : Nat
  metadata : List (String × String)
  metadata_text : String

/-- The external collaborators of a `build_index` run: the `stat` oracle
(`none` models a raised `OSError`) and the extractor (total, by C7).  The
materialized Finder output (`list(self.finder.iter_images(folders))`) is
passed to `build_index` as an explicit path list. -/
structure IndexEnv where
  statF : String → Option (Int × Nat)
  extractMap : String → List (String × String)

/-- `build_item`: stat the file (a failure skips it), extract metadata,
derive the search blob. -/
def build_item (env : IndexEnv) (p : String) : Option IndexedImage :=
  match env.statF p with
  | none => none
  | some (mt, sz) =>
      let metadata := env.extractMap p
      some ⟨p, pathName p, mt, sz, metadata, metadata_to_text metadata⟩

/-- The sequential writer loop's state on exit. -/
structure LoopOut where
  db : DB
  existing : List String
  count : Nat
  canceled : Bool
deriving DecidableEq

/-- The sequential loop of `build_index`: `for idx, path in
enumerate(paths, start=1)`, checking the cancel flag first (`cancel idx` is
the value `should_cancel()` returns at iteration `idx`), skipping failed
items, otherwise upserting and recording the path. -/
def buildLoop (env : IndexEnv) (cancel : Nat → Bool) :
    List String → Nat → DB → List String → Nat → LoopOut
  | [], _, db, existing, count => ⟨db, existing, count, false⟩
  | p :: rest, idx, db, existing, count =>
    if cancel idx then ⟨db, existing, count, true⟩
    else
      match build_item env p with
      | none => buildLoop env cancel rest (idx + 1) db existing count
      | some item =>
          buildLoop env cancel rest (idx + 1)
            (upsert_image db item.path item.filename item.mtime item.size
              item.metadata item.metadata_text)
            (existing ++ [item.path]) (count + 1)

/-- What `build_index` returns and leaves behind: the repository state, the
returned count, and whether the run was canceled. -/
structure BuildResult where
  db : DB
  count : Nat
  canceled : Bool
deriving DecidableEq

/-- `IndexerService.build_index` (sequential path): `clear_all`, loop over
the materialized paths, then `delete_missing(existing_paths)` and `commit`
— both run whether or not the loop was canceled.  The JSON snapshot only
writes a file and is not part of the repository state. -/
def build_index (env : IndexEnv) (paths : List String) (cancel : Nat → Bool)
    (db : DB) : BuildResult :=
  let db0 := clear_all db
  let out := buildLoop env cancel paths 1 db0 [] 0
  ⟨delete_missing out.db out.existing, out.count, out.canceled⟩

/-- First lookup of a path's surrogate id (`SELECT id FROM images WHERE path = ?`). -/
def imageId (db : DB) (p : String) : Option Nat :=
  (db.images.find? (fun r => r.path = p)).map (fun r => r.id)

/-! ### Thumbnail cache (`utils/thumb_cache.py`, `ui/workers/thumb_worker.py`) -/

/-- The filesystem and decoder as `build_thumb` sees them: `os.stat`
(`none` models `OSError`), cache-file existence, `os.path.getsize`, and the
QImage decode/scale/save chain (`none`: the decoded or scaled image is
null; `some b`: `save` returned `b`). -/
structure ThumbEnv where
  statT : String → Option (Int × Nat)
  fileExists : String → Bool
  getsize : String → Option Nat
  decodeImage : String → Option Bool

/-- `thumb_cache_path`: key is `f"{path}|{mtime}|{size}"`, falling back to
the bare path when `stat` fails; the cache file is the hex digest plus
`.png` inside `cache_dir`.  The hash is an external pure function
(`sha1hex`). -/
def thumb_cache_path (sha1hex : String → String) (env : ThumbEnv)
    (path cache_dir : String) : String :=
  let key :=
    match env.statT path with
    | some (mt, sz) => path ++ "|" ++ toString mt ++ "|" ++ toString sz
    | none => path
  cache_dir ++ "/" ++ sha1hex key ++ ".png"

/-- What one `build_thumb` call did: its return value and whether it
decoded the source image. -/
structure ThumbOutcome where
  result : Bool
  decoded : Bool
deriving DecidableEq

/-- `ThumbWorker.run.build_thumb`: empty path is rejected; an existing
cache file is a hit before anything touches the source; oversized or
unreadable sources are skipped; otherwise decode, scale and save. -/
def build_thumb (sha1hex : String → String) (env : ThumbEnv)
    (path cache_dir : String) (max_thumb_bytes : Nat) : ThumbOutcome :=
  if path = "" then ⟨false, false⟩
  else
    let cache_path := thumb_cache_path sha1hex env path cache_dir
    if env.fileExists cache_path then ⟨true, false⟩
    else
      match env.getsize path with
      | none => ⟨false, false⟩
      | some sz =>
        if sz > max_thumb_bytes then ⟨false, false⟩
        else
          match env.decodeImage path with
          | none => ⟨false, true⟩
          | some saved => ⟨saved, true⟩

/-! ### Concrete fixtures for witnesses and counterexamples -/

/-- A filesystem/extractor oracle: every stat succeeds with `(0, 0)`, every
extraction is empty. -/
def oraFx : IndexEnv := ⟨fun _ => some (0, 0), fun _ => []⟩

/-- A store holding one previously committed record with its FTS entry. -/
def dbPrev : DB :=
  ⟨[⟨1, "/old/z.jpg", "z.jpg", 0, 0, "m"⟩], [⟨1, "/old/z.jpg", "z.jpg", "t"⟩]⟩

/-- An FTS engine where every row matches and the score is the rowid. -/
def wEng : FtsEngine := ⟨fun _ _ => true, fun _ f => (f.rowid : Int)⟩

/-- A two-record store with its FTS projection in lockstep. -/
def wDB : DB :=
  ⟨[⟨1, "/r/a.jpg", "a.jpg", 0, 0, "ma"⟩, ⟨2, "/r/b.jpg", "b.jpg", 0, 0, "mb"⟩],
   [⟨1, "/r/a.jpg", "a.jpg", "ta"⟩, ⟨2, "/r/b.jpg", "b.jpg", "tb"⟩]⟩

/-- Extractor oracles where exiftool reports a group literally named `PIL`
and the container inspector reports an `info` key `x`. -/
def envC8 : ExtractEnv :=
  ⟨fun _ => .ok "j",
   fun _ => .ok (.jarr [.jobj [("PIL", .jobj [("x", .jstr "1")])]]),
   fun _ => .ok [("x", .jstr "2")]⟩

/-- Extractor oracles where stage 1 yields the scalar key `A` and the
container inspector reports an `info` key `x`. -/
def envC8w : ExtractEnv :=
  ⟨fun _ => .ok "j",
   fun _ => .ok (.jarr [.jobj [("A", .jstr "1")]]),
   fun _ => .ok [("x", .jstr "2")]⟩

/-- A stand-in for the external hex digest. -/
def idSha : String → String := fun s => s

/-- A filesystem where the cache file always exists and the source is
inaccessible. -/
def cexThumbEnv : ThumbEnv := ⟨fun _ => none, fun _ => true, fun _ => none, fun _ => none⟩

/-- A filesystem where stat succeeds, the cache file exists, and decoding
would succeed if attempted. -/
def wThumbEnv : ThumbEnv :=
  ⟨fun _ => some (5, 7), fun _ => true, fun _ => some 1, fun _ => some true⟩

/-- A one-record store keyed by `/r/b.jpg`. -/
def db1Fx : DB := ⟨[⟨1, "/r/b.jpg", "b.jpg", 0, 0, "m"⟩], []⟩

/-- A cancel signal first observed at the second unit boundary. -/
def cancelAt2 : Nat → Bool := fun j => decide (2 ≤ j)

/-! ### Order-relation instances for the two `ORDER BY` relations -/

instance : IsTotal ImageRow nameLe :=
  ⟨fun a b => le_total a.filename b.filename⟩

instance : IsTrans ImageRow nameLe :=
  ⟨fun _ _ _ h1 h2 => le_trans h1 h2⟩

instance (eng : FtsEngine) (q : String) : IsTotal (FtsRow × ImageRow) (bm25Le eng q) :=
  ⟨fun a b => le_total (eng.bm25 q a.1) (eng.bm25 q b.1)⟩

instance (eng : FtsEngine) (q : String) : IsTrans (FtsRow × ImageRow) (bm25Le eng q) :=
  ⟨fun _ _ _ h1 h2 => le_trans h1 h2⟩

/-! ### Helper lemmas -/

theorem foldl_append_pairs (metadata : List (String × String)) (acc : List String) :
    metadata.foldl (fun acc kv => acc ++ [kv.1, kv.2]) acc =
      acc ++ metadata.flatMap (fun kv => [kv.1, kv.2]) := by
  induction metadata generalizing acc with
  | nil => simp
  | cons hd tl ih => simp [List.flatMap_cons, ih, List.append_assoc]

theorem find?_congr_pred {α : Type} (l : List α) (p q : α → Bool)
    (h : ∀ a ∈ l, p a = q a) : l.find? p = l.find? q := by
  induction l with
  | nil => rfl
  | cons hd tl ih =>
      have hhd := h hd (List.mem_cons_self hd tl)
      by_cases hp : p hd = true
      · rw [List.find?_cons_of_pos _ hp, List.find?_cons_of_pos _ (hhd ▸ hp)]
      · rw [List.find?_cons_of_neg _ hp, List.find?_cons_of_neg _ (hhd ▸ hp),
          ih (fun a ha => h a (List.mem_cons_of_mem hd ha))]

theorem pages_flatten {α : Type} (k : Nat) :
    ∀ (n : Nat) (l : List α), l.length ≤ n * k →
      ((List.range n).map (fun i => (l.drop (i * k)).take k)).flatten = l := by
  intro n
  induction n with
  | zero =>
      intro l hl
      simp only [Nat.zero_mul, Nat.le_zero, List.length_eq_zero] at hl
      subst hl
      rfl
  | succ m ih =>
      intro l hl
      rw [List.range_succ_eq_map]
      simp only [List.map_cons, List.map_map, List.flatten_cons, Nat.zero_mul,
        List.drop_zero]
      have hcomp :
          (List.map ((fun i => (l.drop (i * k)).take k) ∘ Nat.succ) (List.range m)) =
            (List.range m).map (fun i => ((l.drop k).drop (i * k)).take k) := by
        apply List.map_congr_left
        intro i _
        simp only [Function.comp]
        rw [List.drop_drop]
        have h2 : Nat.succ i * k = k + i * k := by rw [Nat.succ_eq_add_one]; ring
        rw [h2]
      rw [hcomp, ih (l.drop k) ?_]
      · exact List.take_append_drop k l
      · rw [List.length_drop, Nat.succ_mul] at *
        generalize m * k = t at *
        omega

/-! ### Claim theorems -/

/-- Claim C6 (confirmed): for every string-to-string mapping,
`metadata_to_text` produces, in mapping iteration order, each key followed
by its value, finally followed by the single compact JSON re-serialization
of the whole mapping (the parts joined by single spaces). -/
theorem C6_metadata_to_text_spec (metadata : List (String × String)) :
    metadata_to_text metadata = metadataToTextSpec metadata := by
  unfold metadata_to_text metadataToTextSpec
  rw [foldl_append_pairs metadata []]
  simp

/-- Claim C7 (confirmed): for every path and every behaviour of the
structured-extractor stage and the image-decoder stage (including raised
exceptions at any fallible step), `extract` returns a mapping and never
propagates an exception to its caller. -/
theorem C7_extract_total (env : ExtractEnv) (path : String) :
    ∃ metadata, extract env path = Except.ok metadata :=
  ⟨_, rfl⟩

/-- Claim C3 (confirmed): for every limit and offset, `search_images` with
an empty or whitespace-only query returns the `LIMIT`/`OFFSET` window of
the records ordered lexicographically by filename, and with a non-empty
query it returns the window of exactly the `MATCH`-ing joined records
ordered by ascending `bm25` — which is descending relevance, since
SQLite's `bm25()` is lower-for-more-relevant. -/
theorem C3_search_modes (eng : FtsEngine) (db : DB) (query : String)
    (limit offset : Nat) :
    (search_images eng db query limit offset =
      ((if stripTruthy query = false then (byNameSorted db).map projRow
        else (rankedJoin eng db query).map (fun fi => projRow fi.2)).drop offset).take limit)
    ∧ List.Sorted nameLe (byNameSorted db)
    ∧ (byNameSorted db).Perm db.images
    ∧ List.Sorted (bm25Le eng query) (rankedJoin eng db query)
    ∧ (rankedJoin eng db query).Perm
        ((joinedRows db).filter (fun fi => eng.matchQ query fi.1))
    ∧ (∀ fi ∈ rankedJoin eng db query, eng.matchQ query fi.1 = true) := by
  refine ⟨?_, List.sorted_insertionSort _ _, List.perm_insertionSort _ _,
    List.sorted_insertionSort _ _, List.perm_insertionSort _ _, ?_⟩
  · unfold search_images searchAll
    cases h : stripTruthy query <;> simp [h]
  · intro fi hfi
    have hmem := (List.perm_insertionSort (bm25Le eng query)
      ((joinedRows db).filter (fun fi => eng.matchQ query fi.1))).mem_iff.mp hfi
    exact (List.mem_filter.mp hmem).2

/-- Witness for C3 at a concrete store: the non-empty-query page is the
ranked projection of the matching join, and a concrete member of the
ranked join matches the query. -/
theorem C3_search_modes_witness :
    search_images wEng wDB "q" 2 0
      = [(1, "/r/a.jpg", "a.jpg", "ma"), (2, "/r/b.jpg", "b.jpg", "mb")]
    ∧ wEng.matchQ "q" ⟨1, "/r/a.jpg", "a.jpg", "ta"⟩ = true := by
  constructor
  · have h := (C3_search_modes wEng wDB "q" 2 0).1
    rw [h]
    decide
  · exact (C3_search_modes wEng wDB "q" 2 0).2.2.2.2.2
      (⟨1, "/r/a.jpg", "a.jpg", "ta"⟩, ⟨1, "/r/a.jpg", "a.jpg", 0, 0, "ma"⟩) (by decide)

/-- Claim C4 (confirmed): for every limit at least 1, concatenating the
successive pages of `search_images` (advancing the offset by the limit)
over a stable store reproduces the full un-paginated result, with no
duplicates and no gaps, in both query modes; and an offset at or beyond
the result length yields the empty sequence rather than an error. -/
theorem C4_pagination (eng : FtsEngine) (db : DB) (query : String) (limit : Nat)
    (hl : 1 ≤ limit) :
    (∀ n, (searchAll eng db query).length ≤ n * limit →
        ((List.range n).map
          (fun i => search_images eng db query limit (i * limit))).flatten
          = searchAll eng db query)
    ∧ (∀ offset, (searchAll eng db query).length ≤ offset →
        search_images eng db query limit offset = []) := by
  constructor
  · intro n hn
    have h := pages_flatten limit n (searchAll eng db query) hn
    simpa [search_images] using h
  · intro offset hoff
    unfold search_images
    rw [List.drop_eq_nil_of_le hoff, List.take_nil]

/-- Witness for C4 at a concrete store: two pages of size 1 over a
two-record store concatenate to the full ranked result. -/
theorem C4_pagination_witness :
    ((List.range 2).map (fun i => search_images wEng wDB "q" 1 (i * 1))).flatten
      = searchAll wEng wDB "q" :=
  (C4_pagination wEng wDB "q" 1 (by decide)).1 2 (by decide)

theorem buildLoop_canceled_run (env : IndexEnv) (cancel : Nat → Bool) (k : Nat)
    (hck : cancel k = true) :
    ∀ (paths : List String) (idx : Nat) (db : DB) (ex : List String) (c : Nat),
      idx ≤ k → (∀ j, idx ≤ j → j < k → cancel j = false) →
      ((buildLoop env cancel paths idx db ex c).db
         = (buildLoop env (fun _ => false) (paths.take (k - idx)) idx db ex c).db
      ∧ (buildLoop env cancel paths idx db ex c).existing
         = (buildLoop env (fun _ => false) (paths.take (k - idx)) idx db ex c).existing
      ∧ (buildLoop env cancel paths idx db ex c).count
         = (buildLoop env (fun _ => false) (paths.take (k - idx)) idx db ex c).count) := by
  intro paths
  induction paths with
  | nil =>
      intro idx db ex c _ _
      rw [List.take_nil]
      exact ⟨rfl, rfl, rfl⟩
  | cons p rest ih =>
      intro idx db ex c hidx hbef
      by_cases hik : idx = k
      · subst hik
        simp [buildLoop, hck, Nat.sub_self, List.take_zero]
      · have hlt : idx < k := Nat.lt_of_le_of_ne hidx hik
        have hcidx : cancel idx = false := hbef idx le_rfl hlt
        have htake : k - idx = (k - (idx + 1)) + 1 := by omega
        rw [htake]
        simp only [List.take_succ_cons, buildLoop, hcidx, Bool.false_eq_true, if_false]
        cases hbi : build_item env p with
        | none =>
            exact ih (idx + 1) db ex c (by omega) (fun j hj1 hj2 => hbef j (by omega) hj2)
        | some item =>
            exact ih (idx + 1) _ _ _ (by omega) (fun j hj1 hj2 => hbef j (by omega) hj2)

/-- Claim C1, counterexample: a run canceled at the very first unit
boundary does not leave the previously-committed record set untouched —
the store (one committed record, `dbPrev`) ends completely empty, because
`build_index` clears both tables up front and still runs the
`delete_missing` reconciliation after a canceled loop. -/
theorem C1_counterexample :
    dbPrev.images ≠ []
    ∧ (build_index oraFx ["/r/a.jpg"] (fun _ => true) dbPrev).canceled = true
    ∧ (build_index oraFx ["/r/a.jpg"] (fun _ => true) dbPrev).count = 0
    ∧ (build_index oraFx ["/r/a.jpg"] (fun _ => true) dbPrev).db = emptyDB := by
  exact ⟨by decide, rfl, rfl, rfl⟩

/-- Claim C1 as amended: when the cancellation signal is first observed at
unit boundary `k`, the canceled run's store and returned count are exactly
those of an uncanceled run over the prefix of `k - 1` paths consumed before
the signal — so the count reflects only units committed before cancellation
was observed, but the previous store contents are not preserved (they were
cleared at run start), and `delete_missing` runs regardless. -/
theorem C1_canceled_prefix_run (env : IndexEnv) (paths : List String)
    (cancel : Nat → Bool) (db : DB) (k : Nat)
    (h1 : 1 ≤ k) (hck : cancel k = true)
    (hbef : ∀ j, 1 ≤ j → j < k → cancel j = false) :
    (build_index env paths cancel db).db
      = (build_index env (paths.take (k - 1)) (fun _ => false) db).db
    ∧ (build_index env paths cancel db).count
      = (build_index env (paths.take (k - 1)) (fun _ => false) db).count := by
  obtain ⟨hdb, hex, hc⟩ :=
    buildLoop_canceled_run env cancel k hck paths 1 (clear_all db) [] 0 h1 hbef
  constructor
  · show delete_missing (buildLoop env cancel paths 1 (clear_all db) [] 0).db
        (buildLoop env cancel paths 1 (clear_all db) [] 0).existing
      = delete_missing
        (buildLoop env (fun _ => false) (paths.take (k - 1)) 1 (clear_all db) [] 0).db
        (buildLoop env (fun _ => false) (paths.take (k - 1)) 1 (clear_all db) [] 0).existing
    rw [hdb, hex]
  · show (buildLoop env cancel paths 1 (clear_all db) [] 0).count
      = (buildLoop env (fun _ => false) (paths.take (k - 1)) 1 (clear_all db) [] 0).count
    exact hc

/-- Witness for the amended C1: with cancellation first observed at the
second unit boundary, the run equals an uncanceled run over the first path
alone. -/
theorem C1_canceled_prefix_run_witness :
    (build_index oraFx ["/r/a.jpg", "/r/b.jpg"] cancelAt2 dbPrev).db
      = (build_index oraFx (["/r/a.jpg", "/r/b.jpg"].take 1) (fun _ => false) dbPrev).db
    ∧ (build_index oraFx ["/r/a.jpg", "/r/b.jpg"] cancelAt2 dbPrev).count
      = (build_index oraFx (["/r/a.jpg", "/r/b.jpg"].take 1) (fun _ => false) dbPrev).count :=
  C1_canceled_prefix_run oraFx ["/r/a.jpg", "/r/b.jpg"] cancelAt2 dbPrev 2
    (by decide) (by decide)
    (by
      intro j hj1 hj2
      have hj : j = 1 := by omega
      subst hj
      decide)

/-- Claim C2, counterexample: `build_index` clears the whole `images` table
at the start of every run, so SQLite reassigns rowids from 1; after a first
rebuild over two files `/r/b.jpg` has id 2, and after a second rebuild that
sees only `/r/b.jpg` (its path unchanged) it has id 1. -/
theorem C2_counterexample :
    imageId (build_index oraFx ["/r/a.jpg", "/r/b.jpg"] (fun _ => false) emptyDB).db
        "/r/b.jpg" = some 2
    ∧ imageId (build_index oraFx ["/r/b.jpg"] (fun _ => false)
        (build_index oraFx ["/r/a.jpg", "/r/b.jpg"] (fun _ => false) emptyDB).db).db
        "/r/b.jpg" = some 1 :=
  ⟨rfl, rfl⟩

/-- Claim C2 as amended: the upsert itself is id-stable — when a record for
the path already exists, `upsert_image` (even with changed mtime and size)
preserves its surrogate id.  Across two full rebuilds the id is preserved
only when the sequence of committed records is unchanged, because
`build_index` first clears the table, which lets the store reassign ids. -/
theorem C2_upsert_preserves_id (db : DB) (p fn : String) (mt : Int) (sz : Nat)
    (md : List (String × String)) (mtext : String) (i : Nat)
    (h : imageId db p = some i) :
    imageId (upsert_image db p fn mt sz md mtext) p = some i := by
  unfold imageId at h ⊢
  obtain ⟨r, hr, hid⟩ : ∃ r, db.images.find? (fun x => x.path = p) = some r ∧ r.id = i := by
    cases hfind : db.images.find? (fun x => x.path = p) with
    | none => rw [hfind] at h; simp at h
    | some r => rw [hfind] at h; simp at h; exact ⟨r, rfl, h⟩
  have hany : db.images.any (fun x => x.path = p) = true := by
    rw [List.any_eq_true]
    refine ⟨r, List.mem_of_find?_eq_some hr, ?_⟩
    have hs := List.find?_some hr
    simpa using hs
  unfold upsert_image
  simp only [hany, if_true]
  rw [List.find?_map]
  rw [find?_congr_pred _ _ (fun x => x.path = p) ?_]
  · rw [hr]
    have hrp : r.path = p := by simpa using List.find?_some hr
    simp [hrp, hid]
  · intro a _
    by_cases ha : a.path = p <;> simp [ha]

/-- Witness for the amended C2: upserting `/r/b.jpg` with new mtime and
size into a store where it has id 1 keeps id 1. -/
theorem C2_upsert_preserves_id_witness :
    imageId (upsert_image db1Fx "/r/b.jpg" "b.jpg" 99 42 [("k", "v")] "t") "/r/b.jpg"
      = some 1 :=
  C2_upsert_preserves_id db1Fx "/r/b.jpg" "b.jpg" 99 42 [("k", "v")] "t" 1 (by decide)

/-- Claim C5 (confirmed): `build_index` ignores the pre-existing store (it
clears it immediately), so two successive uncanceled runs over the same
path list with the same oracles return the same count, leave identical
stores, and give identical results to every search query. -/
theorem C5_idempotent_rebuild (env : IndexEnv) (paths : List String)
    (cancel : Nat → Bool) (db : DB) (h : ∀ k, cancel k = false) :
    (build_index env paths cancel ((build_index env paths cancel db).db)).count
      = (build_index env paths cancel db).count
    ∧ (build_index env paths cancel ((build_index env paths cancel db).db)).db
      = (build_index env paths cancel db).db
    ∧ ∀ (eng : FtsEngine) (query : String) (limit offset : Nat),
        search_images eng
            (build_index env paths cancel ((build_index env paths cancel db).db)).db
            query limit offset
          = search_images eng (build_index env paths cancel db).db query limit offset :=
  ⟨rfl, rfl, fun _ _ _ _ => rfl⟩

/-- Witness for C5: a second rebuild over one path returns the first
rebuild's count. -/
theorem C5_idempotent_rebuild_witness :
    (build_index oraFx ["/r/a.jpg"] (fun _ => false)
        ((build_index oraFx ["/r/a.jpg"] (fun _ => false) emptyDB).db)).count
      = (build_index oraFx ["/r/a.jpg"] (fun _ => false) emptyDB).count :=
  (C5_idempotent_rebuild oraFx ["/r/a.jpg"] (fun _ => false) emptyDB (fun _ => rfl)).1

/-- Claim C10 (confirmed): when the finder yields no candidate paths and
cancellation is never requested, `build_index` returns 0, reports no
cancellation, and leaves the store completely empty — every previously
indexed record and every search-index entry is removed. -/
theorem C10_empty_finder (env : IndexEnv) (cancel : Nat → Bool) (db : DB)
    (h : ∀ k, cancel k = false) :
    build_index env [] cancel db = ⟨emptyDB, 0, false⟩ :=
  rfl

/-- Witness for C10: over a store holding one previously committed record,
an empty-finder run empties it and returns 0. -/
theorem C10_empty_finder_witness :
    build_index oraFx [] (fun _ => false) dbPrev = ⟨emptyDB, 0, false⟩ :=
  C10_empty_finder oraFx (fun _ => false) dbPrev (fun _ => rfl)

theorem dictLookup_dictInsert_ne (m : List (String × String)) (k kp vp : String)
    (hne : k ≠ kp) : dictLookup (dictInsert m kp vp) k = dictLookup m k := by
  unfold dictInsert dictLookup
  split
  · rw [List.find?_map]
    rw [find?_congr_pred _ _ (fun kv => kv.1 = k) ?_]
    · cases hf : m.find? (fun kv => kv.1 = k) with
      | none => simp
      | some r =>
          have hr : r.1 = k := by simpa using List.find?_some hf
          have hrk : r.1 ≠ kp := by rw [hr]; exact hne
          simp [hrk]
    · intro a _
      by_cases ha : a.1 = kp <;> simp [ha, hne.symm]
  · rw [List.find?_append]
    have hsingle : List.find? (fun kv => kv.1 = k) [(kp, vp)] = none := by
      simp [hne.symm]
    rw [hsingle, Option.or_none]

theorem dictLookup_pil_fold (k v : String) (hnp : ∀ s, k ≠ "PIL:" ++ s) :
    ∀ (info : List (String × JVal)) (md : List (String × String)),
      dictLookup md k = some v →
      dictLookup
          (info.foldl (fun md kv => dictInsert md ("PIL:" ++ kv.1) (pyStr kv.2)) md) k
        = some v := by
  intro info
  induction info with
  | nil => intro md h; exact h
  | cons hd tl ih =>
      intro md h
      simp only [List.foldl_cons]
      refine ih _ ?_
      rw [dictLookup_dictInsert_ne _ _ _ _ (hnp hd.1)]
      exact h

/-- Claim C8, counterexample: stage 1's flattening joins an outer group
name and an inner tag with a colon, so a structured-extractor output whose
outer group is literally named `PIL` produces the key `PIL:x` — equal to a
stage-2 key — and the stage-2 merge then overwrites that stage-1 entry
(value `1` becomes `2`). -/
theorem C8_counterexample :
    pyTry (stage1 envC8 "/a/f.png") [] = [("PIL:x", "1")]
    ∧ extract envC8 "/a/f.png" = Except.ok [("PIL:x", "2")] :=
  ⟨rfl, by rfl⟩

/-- Claim C8 as amended: every stage-2 key carries the `PIL:` namespace
prefix, so the merge never overwrites a stage-1 entry whose key does not
begin with `PIL:`; stage-1 flattening can itself produce `PIL:`-prefixed
keys (an outer group named `PIL`), and only those can be overwritten. -/
theorem C8_pil_merge_preserves_other_keys (env : ExtractEnv) (path k v : String)
    (hnp : ∀ s, k ≠ "PIL:" ++ s)
    (hbase : dictLookup (pyTry (stage1 env path) []) k = some v) :
    ∃ m, extract env path = Except.ok m ∧ dictLookup m k = some v := by
  have hM : extract env path = Except.ok
      (if pilExtensions.contains (asciiLower (pathSuffix path)) then
        match env.imageOpen path with
        | .ok info =>
            info.foldl (fun md kv => dictInsert md ("PIL:" ++ kv.1) (pyStr kv.2))
              (pyTry (stage1 env path) [])
        | .error _ => pyTry (stage1 env path) []
      else pyTry (stage1 env path) []) := rfl
  refine ⟨_, hM, ?_⟩
  split
  · cases him : env.imageOpen path with
    | ok info => exact dictLookup_pil_fold k v hnp info _ hbase
    | error e => exact hbase
  · exact hbase

/-- Witness for the amended C8: the stage-1 key `A` survives the stage-2
merge with its original value. -/
theorem C8_pil_merge_preserves_other_keys_witness :
    ∃ m, extract envC8w "/a/f.png" = Except.ok m ∧ dictLookup m "A" = some "1" :=
  C8_pil_merge_preserves_other_keys envC8w "/a/f.png" "A" "1"
    (by
      intro s hs
      have hlen := congrArg String.length hs
      have h4 : ("PIL:").length = 4 := rfl
      have h1 : ("A").length = 1 := rfl
      rw [String.length_append, h4, h1] at hlen
      omega)
    (by decide)

/-- Claim C9, counterexample: `build_thumb` rejects the empty path before
consulting the cache, so even though the cache file for the empty path's
fingerprint exists, it does not report a hit. -/
theorem C9_counterexample :
    cexThumbEnv.fileExists (thumb_cache_path idSha cexThumbEnv "" "/c") = true
    ∧ build_thumb idSha cexThumbEnv "" "/c" 100 ≠ ⟨true, false⟩ :=
  ⟨rfl, by decide⟩

/-- Claim C9 as amended: the fingerprint is a function of the path and the
stat result (mtime, size) alone — two invocations agreeing on those
produce the same cache path; and for every non-empty path, when the cache
file for the fingerprint already exists, `build_thumb` reports a hit
without decoding the source image. -/
theorem C9_cache_key_deterministic_hit_no_decode :
    (∀ (sha1hex : String → String) (env1 env2 : ThumbEnv) (path cache_dir : String),
        env1.statT path = env2.statT path →
        thumb_cache_path sha1hex env1 path cache_dir
          = thumb_cache_path sha1hex env2 path cache_dir)
    ∧ (∀ (sha1hex : String → String) (env : ThumbEnv) (path cache_dir : String)
          (max_thumb_bytes : Nat),
        path ≠ "" →
        env.fileExists (thumb_cache_path sha1hex env path cache_dir) = true →
        build_thumb sha1hex env path cache_dir max_thumb_bytes = ⟨true, false⟩) := by
  constructor
  · intro sha1hex env1 env2 path cache_dir h
    unfold thumb_cache_path
    rw [h]
  · intro sha1hex env path cache_dir mb hne hex
    unfold build_thumb
    rw [if_neg hne]
    simp only [hex, if_true]

/-- Witness for the amended C9: determinism across two filesystems
agreeing on the stat of a path, and a hit without decode on an existing
cache file. -/
theorem C9_cache_key_deterministic_hit_no_decode_witness :
    thumb_cache_path idSha wThumbEnv "/a/x.jpg" "/c"
      = thumb_cache_path idSha wThumbEnv "/a/x.jpg" "/c"
    ∧ build_thumb idSha wThumbEnv "/a/x.jpg" "/c" 5 = ⟨true, false⟩ :=
  ⟨C9_cache_key_deterministic_hit_no_decode.1 idSha wThumbEnv wThumbEnv "/a/x.jpg" "/c" rfl,
   C9_cache_key_deterministic_hit_no_decode.2 idSha wThumbEnv "/a/x.jpg" "/c" 5
    (by decide) rfl⟩
